import Mathlib

/-!
# Verification of the order entity core (`src/order.py`)

A shallow embedding of the order module: the `Side` / `OrderType` /
`OrderStatus` enumerations, the `OrderIDGenerator` counter, and the `Order`
entity with its construction-time validation and its `fill` / `cancel`
lifecycle, followed by theorems about that embedding.

Modelling conventions:
* Python's dynamically typed `quantity` argument (annotated `int` but checked
  at runtime with `isinstance(quantity, int)`) is embedded as `PyNum`, which
  distinguishes an `int`-typed value from a `float`-typed one; the numeric
  value of either is a rational.
* Python floats are embedded as rationals (the source only compares them,
  never rounds).
* Each `raise ValueError(...)` in the source becomes a distinct constructor of
  `OrderError`; `OverFill` carries the requested and remaining amounts that
  the source interpolates into its message.
* The mutating methods `fill` and `cancel` are embedded by explicit state
  passing: they return the post-state together with the Python return value
  (`Except` for the fallible `fill`).  Since the source raises before any
  field assignment, the post-state on failure is the unchanged pre-state.
-/

set_option autoImplicit false

/-- `class Side(Enum)`: BUY = 1, SELL = -1 (numeric values incidental). -/
inductive Side where
  | BUY
  | SELL
deriving DecidableEq, Repr

/-- `class OrderType(Enum)`: LIMIT = 1, MARKET = 2. -/
inductive OrderType where
  | LIMIT
  | MARKET
deriving DecidableEq, Repr

/-- `class OrderStatus(Enum)`: PENDING, PARTIALLY_FILLED, FILLED, CANCELLED. -/
inductive OrderStatus where
  | PENDING
  | PARTIALLY_FILLED
  | FILLED
  | CANCELLED
deriving DecidableEq, Repr

/-- A dynamically typed Python number: either an `int`-typed value or a
`float`-typed value.  `isinstance(x, int)` holds exactly for the first
constructor. -/
inductive PyNum where
  | int (n : ℤ)
  | float (q : ℚ)
deriving DecidableEq, Repr

/-- The numeric value of a Python number (used by `<=` comparisons). -/
def PyNum.toRat : PyNum → ℚ
  | PyNum.int n => (n : ℚ)
  | PyNum.float q => q

/-- `isinstance(x, int)`: true exactly for `int`-typed values (a float with a
whole-number value is still not an `int`). -/
def PyNum.isInt : PyNum → Bool
  | PyNum.int _ => true
  | PyNum.float _ => false

/-- The distinct `ValueError`s raised by the source, one constructor per
`raise` site.  `overFill` carries the requested and remaining amounts from the
message `f"Cannot fill {quantity}, only {remaining} remaining"`. -/
inductive OrderError where
  | missingPrice
  | invalidPrice
  | invalidQuantityNonPositive
  | invalidQuantityNonInteger
  | invalidFillQuantity
  | overFill (requested : ℤ) (remaining : ℚ)
deriving DecidableEq, Repr

/-- `class OrderIDGenerator`: a single mutable integer counter. -/
structure OrderIDGenerator where
  _current : ℤ
deriving DecidableEq, Repr

/-- `def next(self) -> int`: return the current counter, then increment it. -/
def OrderIDGenerator.next (g : OrderIDGenerator) : ℤ × OrderIDGenerator :=
  (g._current, ⟨g._current + 1⟩)

/-- `def reset(self)`: set the counter back to 1. -/
def OrderIDGenerator.reset (_g : OrderIDGenerator) : OrderIDGenerator := ⟨1⟩

/-- `id_generator = OrderIDGenerator()`: the module-level generator, starting
at the constructor default `start = 1`. -/
def id_generator : OrderIDGenerator := ⟨1⟩

/-- Calling `next()` n times in sequence, collecting the returned ids and the
final generator state. -/
def OrderIDGenerator.nextN : OrderIDGenerator → ℕ → List ℤ × OrderIDGenerator
  | g, 0 => ([], g)
  | g, Nat.succ n =>
    let r := g.next
    let rest := OrderIDGenerator.nextN r.2 n
    (r.1 :: rest.1, rest.2)

/-- `@dataclass class Order`, with the fields in source order.  `price` is
`Optional[float]`; `order_id` and `timestamp` are the values the default
factories (`id_generator.next()`, `time.time()`) or the caller supplied. -/
structure Order where
  side : Side
  order_type : OrderType
  quantity : PyNum
  price : Option ℚ
  order_id : ℤ
  timestamp : ℚ
  filled_quantity : ℤ
  status : OrderStatus
deriving DecidableEq, Repr

/-- The condition `self.price <= 0` of the second validation check.  It is
only reached with `price = none` when `order_type ≠ LIMIT`, where the Python
`and` short-circuits before evaluating it, so the `none` branch is arbitrary
(`false` keeps the conjunction inert, matching the short-circuit). -/
def priceNonPositive : Option ℚ → Bool
  | some p => decide (p ≤ 0)
  | none => false

/-- `def _validate(self)`: the four sequential checks of the source, first
violation wins; `none` means no `ValueError` is raised. -/
def Order.validate (o : Order) : Option OrderError :=
  if o.order_type = OrderType.LIMIT ∧ o.price = none then
    some OrderError.missingPrice
  else if o.order_type = OrderType.LIMIT ∧ priceNonPositive o.price = true then
    some OrderError.invalidPrice
  else if o.quantity.toRat ≤ 0 then
    some OrderError.invalidQuantityNonPositive
  else if o.quantity.isInt = false then
    some OrderError.invalidQuantityNonInteger
  else
    none

/-- `Order(side, order_type, quantity, price, order_id, timestamp)` followed
by `__post_init__`'s `_validate`: the dataclass fields `filled_quantity` and
`status` take their declared defaults `0` and `PENDING`; construction yields
the order or the first validation error. -/
def mkOrder (side : Side) (order_type : OrderType) (quantity : PyNum)
    (price : Option ℚ) (order_id : ℤ) (timestamp : ℚ) : Except OrderError Order :=
  let o : Order :=
    { side := side, order_type := order_type, quantity := quantity,
      price := price, order_id := order_id, timestamp := timestamp,
      filled_quantity := 0, status := OrderStatus.PENDING }
  match o.validate with
  | some e => Except.error e
  | none => Except.ok o

/-- `@property remaining_quantity`: `self.quantity - self.filled_quantity`. -/
def Order.remaining_quantity (o : Order) : ℚ :=
  o.quantity.toRat - (o.filled_quantity : ℚ)

/-- `@property is_filled`: `self.remaining_quantity == 0`. -/
def Order.is_filled (o : Order) : Prop :=
  o.remaining_quantity = 0

instance (o : Order) : Decidable o.is_filled :=
  inferInstanceAs (Decidable (o.remaining_quantity = 0))

/-- `@property is_active`: `self.status in (PENDING, PARTIALLY_FILLED)`. -/
def Order.is_active (o : Order) : Prop :=
  o.status = OrderStatus.PENDING ∨ o.status = OrderStatus.PARTIALLY_FILLED

instance (o : Order) : Decidable o.is_active :=
  inferInstanceAs (Decidable (_ ∨ _))

/-- `def fill(self, quantity: int) -> int`: the two precondition checks (in
source order), then `filled_quantity += quantity` and the status update;
returns the post-state (unchanged on a raise, which happens before any
assignment) and the returned quantity or the error. -/
def Order.fill (o : Order) (quantity : ℤ) : Order × Except OrderError ℤ :=
  if quantity ≤ 0 then
    (o, Except.error OrderError.invalidFillQuantity)
  else if o.remaining_quantity < (quantity : ℚ) then
    (o, Except.error (OrderError.overFill quantity o.remaining_quantity))
  else if ({ o with filled_quantity := o.filled_quantity + quantity } : Order).is_filled then
    ({ o with
        filled_quantity := o.filled_quantity + quantity
        status := OrderStatus.FILLED }, Except.ok quantity)
  else
    ({ o with
        filled_quantity := o.filled_quantity + quantity
        status := OrderStatus.PARTIALLY_FILLED }, Except.ok quantity)

/-- `def cancel(self) -> bool`: no-op returning `False` on a `FILLED` order,
otherwise set `status := CANCELLED` and return `True`. -/
def Order.cancel (o : Order) : Order × Bool :=
  if o.status = OrderStatus.FILLED then
    (o, false)
  else
    ({ o with status := OrderStatus.CANCELLED }, true)

/-- `def __eq__(self, other)` restricted to two `Order` operands (the
`isinstance` branch returning `False` for non-orders is outside the embedded
universe): identity comparison on `order_id` alone. -/
def Order.eq (a b : Order) : Bool :=
  a.order_id == b.order_id

/-- `def create_limit_order(side, quantity, price)`. -/
def create_limit_order (side : Side) (quantity : PyNum) (price : ℚ)
    (order_id : ℤ) (timestamp : ℚ) : Except OrderError Order :=
  mkOrder side OrderType.LIMIT quantity (some price) order_id timestamp

/-- `def create_market_order(side, quantity)`: fixes `price = None`. -/
def create_market_order (side : Side) (quantity : PyNum)
    (order_id : ℤ) (timestamp : ℚ) : Except OrderError Order :=
  mkOrder side OrderType.MARKET quantity none order_id timestamp

/-- One lifecycle call against an order: `fill(q)` or `cancel()`. -/
inductive OrderEvent where
  | fillEvent (q : ℤ)
  | cancelEvent
deriving DecidableEq, Repr

/-- The post-state of one call (a failed `fill` leaves the order unchanged). -/
def applyEvent (o : Order) : OrderEvent → Order
  | OrderEvent.fillEvent q => (o.fill q).1
  | OrderEvent.cancelEvent => (o.cancel).1

/-- The state after a sequence of `fill` / `cancel` calls. -/
def runEvents (o : Order) (es : List OrderEvent) : Order :=
  es.foldl applyEvent o

/-- The price part of the data-model invariant: present and positive. -/
def pricePresentPositive : Option ℚ → Prop
  | some p => 0 < p
  | none => False

instance (p : Option ℚ) : Decidable (pricePresentPositive p) :=
  match p with
  | some q => inferInstanceAs (Decidable (0 < q))
  | none => inferInstanceAs (Decidable False)

/-- The data-model invariants of an `Order`: bounds on `filled_quantity`,
positive `quantity`, present positive price for LIMIT orders, and `status =
FILLED` exactly when the order is fully filled. -/
def Order.invariants (o : Order) : Prop :=
  0 ≤ o.filled_quantity ∧
  (o.filled_quantity : ℚ) ≤ o.quantity.toRat ∧
  0 < o.quantity.toRat ∧
  (o.order_type = OrderType.LIMIT → pricePresentPositive o.price) ∧
  (o.status = OrderStatus.FILLED ↔ (o.filled_quantity : ℚ) = o.quantity.toRat)

instance (o : Order) : Decidable o.invariants :=
  inferInstanceAs (Decidable (_ ∧ _ ∧ _ ∧ _ ∧ _))

/-! ## Sample concrete orders used by the witnesses -/

/-- A pending MARKET buy of 10, untouched. -/
def sampleMarketOrder : Order :=
  { side := Side.BUY, order_type := OrderType.MARKET, quantity := PyNum.int 10,
    price := none, order_id := 1, timestamp := 0,
    filled_quantity := 0, status := OrderStatus.PENDING }

/-- A cancelled LIMIT sell of 10 with 4 already filled. -/
def sampleCancelledOrder : Order :=
  { side := Side.SELL, order_type := OrderType.LIMIT, quantity := PyNum.int 10,
    price := some 5, order_id := 2, timestamp := 0,
    filled_quantity := 4, status := OrderStatus.CANCELLED }

/-- A fully filled LIMIT buy of 3. -/
def sampleFilledOrder : Order :=
  { side := Side.BUY, order_type := OrderType.LIMIT, quantity := PyNum.int 3,
    price := some 2, order_id := 3, timestamp := 0,
    filled_quantity := 3, status := OrderStatus.FILLED }

/-! ## Helper lemmas -/

/-- A successful `fill` (positive quantity within the remaining amount) adds
the quantity to `filled_quantity`, returns it, and picks the status by whether
the old remaining amount was consumed exactly. -/
theorem Order.fill_of_success (o : Order) (q : ℤ) (hq : 0 < q)
    (hle : (q : ℚ) ≤ o.remaining_quantity) :
    o.fill q =
      (if o.remaining_quantity = (q : ℚ) then
        ({ o with
            filled_quantity := o.filled_quantity + q
            status := OrderStatus.FILLED }, Except.ok q)
      else
        ({ o with
            filled_quantity := o.filled_quantity + q
            status := OrderStatus.PARTIALLY_FILLED }, Except.ok q)) := by
  have h1 : ¬ q ≤ 0 := not_le.mpr hq
  have h2 : ¬ o.remaining_quantity < (q : ℚ) := not_lt.mpr hle
  have h3 : ({ o with filled_quantity := o.filled_quantity + q } : Order).is_filled
      ↔ o.remaining_quantity = (q : ℚ) := by
    simp only [Order.is_filled, Order.remaining_quantity]
    push_cast
    constructor
    · intro h
      linarith
    · intro h
      linarith
  unfold Order.fill
  rw [if_neg h1, if_neg h2]
  by_cases h : o.remaining_quantity = (q : ℚ)
  · rw [if_pos (h3.mpr h), if_pos h]
  · rw [if_neg (fun hh => h (h3.mp hh)), if_neg h]

/-- The remaining quantity after adding `q` to `filled_quantity` (with any
status), expressed from the old remaining quantity. -/
theorem Order.remaining_fill_update (o : Order) (q : ℤ) (s : OrderStatus) :
    ({ o with filled_quantity := o.filled_quantity + q, status := s } : Order).remaining_quantity
      = o.remaining_quantity - (q : ℚ) := by
  simp only [Order.remaining_quantity]
  push_cast
  ring

/-- The untouched 10-lot market order has remaining quantity 10. -/
theorem sampleMarketOrder_rem : sampleMarketOrder.remaining_quantity = 10 := by
  norm_num [sampleMarketOrder, Order.remaining_quantity, PyNum.toRat]

/-- The cancelled order (4 of 10 filled) has remaining quantity 6. -/
theorem sampleCancelledOrder_rem : sampleCancelledOrder.remaining_quantity = 6 := by
  norm_num [sampleCancelledOrder, Order.remaining_quantity, PyNum.toRat]

/-! ## C1 -/

/-- C1: for every order and every fill quantity `q` with `0 < q` and
`q ≤ remaining_quantity`, `fill q` succeeds, increases `filled_quantity` by
exactly `q`, returns `q` itself (never a partial amount), and then sets the
status to FILLED if the new remaining quantity is 0 and to PARTIALLY_FILLED
otherwise. -/
theorem fill_success_adds_quantity_and_updates_status (o : Order) (q : ℤ)
    (hq : 0 < q) (hle : (q : ℚ) ≤ o.remaining_quantity) :
    (o.fill q).2 = Except.ok q ∧
    (o.fill q).1.filled_quantity = o.filled_quantity + q ∧
    (o.fill q).1.status =
      (if (o.fill q).1.remaining_quantity = 0 then OrderStatus.FILLED
       else OrderStatus.PARTIALLY_FILLED) := by
  rw [Order.fill_of_success o q hq hle]
  by_cases h : o.remaining_quantity = (q : ℚ)
  · rw [if_pos h]
    refine ⟨rfl, rfl, ?_⟩
    rw [if_pos (by rw [Order.remaining_fill_update, h, sub_self])]
  · rw [if_neg h]
    refine ⟨rfl, rfl, ?_⟩
    rw [if_neg (by rw [Order.remaining_fill_update]; exact sub_ne_zero.mpr h)]

/-- Witness for C1: filling 3 of the untouched 10-lot market order. -/
theorem fill_success_adds_quantity_and_updates_status_witness :
    (0 : ℤ) < 3 ∧ ((3 : ℤ) : ℚ) ≤ sampleMarketOrder.remaining_quantity ∧
    ((sampleMarketOrder.fill 3).2 = Except.ok 3 ∧
     (sampleMarketOrder.fill 3).1.filled_quantity = sampleMarketOrder.filled_quantity + 3 ∧
     (sampleMarketOrder.fill 3).1.status =
       (if (sampleMarketOrder.fill 3).1.remaining_quantity = 0 then OrderStatus.FILLED
        else OrderStatus.PARTIALLY_FILLED)) :=
  ⟨by decide, by rw [sampleMarketOrder_rem]; decide,
    fill_success_adds_quantity_and_updates_status sampleMarketOrder 3 (by decide)
      (by rw [sampleMarketOrder_rem]; decide)⟩

/-! ## C3 -/

/-- C3: `fill` never consults the status field: a CANCELLED order with
positive remaining quantity accepts any fill of `0 < q ≤ remaining`, and its
status moves to FILLED or PARTIALLY_FILLED exactly as the quantity arithmetic
dictates (FILLED precisely when the fill consumes the whole remainder). -/
theorem fill_on_cancelled_order_succeeds (o : Order) (q : ℤ)
    (hst : o.status = OrderStatus.CANCELLED)
    (hrem : 0 < o.remaining_quantity)
    (hq : 0 < q) (hle : (q : ℚ) ≤ o.remaining_quantity) :
    (o.fill q).2 = Except.ok q ∧
    (o.fill q).1.status =
      (if o.remaining_quantity = (q : ℚ) then OrderStatus.FILLED
       else OrderStatus.PARTIALLY_FILLED) := by
  rw [Order.fill_of_success o q hq hle]
  by_cases h : o.remaining_quantity = (q : ℚ)
  · rw [if_pos h, if_pos h]
    exact ⟨rfl, rfl⟩
  · rw [if_neg h, if_neg h]
    exact ⟨rfl, rfl⟩

/-- Witness for C3: filling 2 of the cancelled order (4 of 10 filled). -/
theorem fill_on_cancelled_order_succeeds_witness :
    sampleCancelledOrder.status = OrderStatus.CANCELLED ∧
    (0 : ℚ) < sampleCancelledOrder.remaining_quantity ∧
    ((sampleCancelledOrder.fill 2).2 = Except.ok 2 ∧
     (sampleCancelledOrder.fill 2).1.status =
       (if sampleCancelledOrder.remaining_quantity = ((2 : ℤ) : ℚ) then OrderStatus.FILLED
        else OrderStatus.PARTIALLY_FILLED)) :=
  ⟨by decide, by rw [sampleCancelledOrder_rem]; decide,
    fill_on_cancelled_order_succeeds sampleCancelledOrder 2 (by decide)
      (by rw [sampleCancelledOrder_rem]; decide) (by decide)
      (by rw [sampleCancelledOrder_rem]; decide)⟩

/-! ## C5 -/

/-- C5: `fill q` with `q ≤ 0` fails with `invalidFillQuantity`; with the
checks taken in source order, `fill q` with `q` above the remaining quantity
fails with `overFill` carrying the requested and remaining amounts; and every
failing `fill` leaves the order exactly as it was. -/
theorem fill_failure_rejects_and_changes_nothing (o : Order) (q : ℤ) :
    (q ≤ 0 → o.fill q = (o, Except.error OrderError.invalidFillQuantity)) ∧
    (0 < q → o.remaining_quantity < (q : ℚ) →
      o.fill q = (o, Except.error (OrderError.overFill q o.remaining_quantity))) ∧
    (∀ e : OrderError, (o.fill q).2 = Except.error e → (o.fill q).1 = o) := by
  refine ⟨?_, ?_, ?_⟩
  · intro h
    unfold Order.fill
    rw [if_pos h]
  · intro hq h
    unfold Order.fill
    rw [if_neg (not_le.mpr hq), if_pos h]
  · intro e he
    unfold Order.fill at he ⊢
    split_ifs at he ⊢ <;> first | rfl | exact absurd he (by simp)

/-- Witness for C5: a zero fill is rejected and leaves the order unchanged. -/
theorem fill_failure_rejects_and_changes_nothing_witness :
    (0 : ℤ) ≤ 0 ∧
    sampleMarketOrder.fill 0 = (sampleMarketOrder, Except.error OrderError.invalidFillQuantity) :=
  ⟨by decide, (fill_failure_rejects_and_changes_nothing sampleMarketOrder 0).1 (by decide)⟩

/-! ## C6 -/

/-- C6: `cancel` on a FILLED order changes nothing and returns `false`; in
every other status it sets the status to CANCELLED and returns `true`, and is
therefore idempotent on a CANCELLED order, returning `true` again with no
further state change. -/
theorem cancel_filled_noop_otherwise_cancels (o : Order) :
    (o.status = OrderStatus.FILLED → o.cancel = (o, false)) ∧
    (o.status ≠ OrderStatus.FILLED →
      o.cancel = ({ o with status := OrderStatus.CANCELLED }, true)) ∧
    (o.status ≠ OrderStatus.FILLED →
      (o.cancel).1.cancel = ((o.cancel).1, true)) := by
  refine ⟨?_, ?_, ?_⟩
  · intro h
    unfold Order.cancel
    rw [if_pos h]
  · intro h
    unfold Order.cancel
    rw [if_neg h]
  · intro h
    have h2 : (o.cancel).1 = { o with status := OrderStatus.CANCELLED } := by
      unfold Order.cancel
      rw [if_neg h]
    rw [h2]
    simp [Order.cancel]

/-- Witness for C6: cancelling the filled order refuses; cancelling the
pending market order (status ≠ FILLED) cancels and is idempotent. -/
theorem cancel_filled_noop_otherwise_cancels_witness :
    sampleFilledOrder.status = OrderStatus.FILLED ∧
    sampleFilledOrder.cancel = (sampleFilledOrder, false) ∧
    sampleMarketOrder.status ≠ OrderStatus.FILLED ∧
    sampleMarketOrder.cancel = ({ sampleMarketOrder with status := OrderStatus.CANCELLED }, true) ∧
    (sampleMarketOrder.cancel).1.cancel = ((sampleMarketOrder.cancel).1, true) :=
  ⟨by decide,
    (cancel_filled_noop_otherwise_cancels sampleFilledOrder).1 (by decide),
    by decide,
    (cancel_filled_noop_otherwise_cancels sampleMarketOrder).2.1 (by decide),
    (cancel_filled_noop_otherwise_cancels sampleMarketOrder).2.2 (by decide)⟩

/-! ## C2 -/

/-- A freshly constructed order that construction will accept. -/
def sampleNewLimitOrder : Order :=
  { side := Side.BUY, order_type := OrderType.LIMIT, quantity := PyNum.int 10,
    price := some 5, order_id := 7, timestamp := 0,
    filled_quantity := 0, status := OrderStatus.PENDING }

/-- A successfully constructed order satisfies the data-model invariants. -/
theorem invariants_of_mkOrder (side : Side) (ot : OrderType) (q : PyNum)
    (price : Option ℚ) (oid : ℤ) (ts : ℚ) (o : Order)
    (h : mkOrder side ot q price oid ts = Except.ok o) : o.invariants := by
  simp only [mkOrder] at h
  split at h
  · exact absurd h (by simp)
  · rename_i heq
    injection h with h
    subst h
    unfold Order.validate at heq
    split_ifs at heq with h1 h2 h3 h4
    have hq : 0 < q.toRat := lt_of_not_le h3
    refine ⟨le_refl 0, ?_, hq, ?_, ?_⟩
    · push_cast
      linarith
    · intro hl
      cases hp : price with
      | none => exact absurd ⟨hl, hp⟩ h1
      | some p =>
        have hpos : ¬ p ≤ 0 := by
          intro hle
          exact h2 ⟨hl, by simp [hp, priceNonPositive, hle]⟩
        simpa [hp, pricePresentPositive] using lt_of_not_le hpos
    · constructor
      · intro hc
        simp at hc
      · intro he
        push_cast at he
        exact absurd he.symm (ne_of_gt hq)

/-- `fill` preserves the data-model invariants (whether it succeeds or
fails). -/
theorem invariants_fill (o : Order) (q : ℤ) (h : o.invariants) :
    ((o.fill q).1).invariants := by
  obtain ⟨i1, i2, i3, i4, i5⟩ := h
  unfold Order.fill
  split_ifs with h1 h2 h3
  · exact ⟨i1, i2, i3, i4, i5⟩
  · exact ⟨i1, i2, i3, i4, i5⟩
  · have hq : 0 < q := not_le.mp h1
    have hle : (q : ℚ) ≤ o.remaining_quantity := not_lt.mp h2
    have hfull : ((o.filled_quantity + q : ℤ) : ℚ) = o.quantity.toRat := by
      simp only [Order.is_filled, Order.remaining_quantity] at h3
      push_cast at h3 ⊢
      linarith
    refine ⟨?_, ?_, i3, i4, ?_⟩
    · dsimp only
      linarith
    · dsimp only
      exact le_of_eq hfull
    · dsimp only
      constructor
      · intro _
        exact hfull
      · intro _
        rfl
  · have hq : 0 < q := not_le.mp h1
    have hle : (q : ℚ) ≤ o.remaining_quantity := not_lt.mp h2
    have hrem : (q : ℚ) ≤ o.quantity.toRat - (o.filled_quantity : ℚ) := by
      simpa [Order.remaining_quantity] using hle
    have hne : ((o.filled_quantity + q : ℤ) : ℚ) ≠ o.quantity.toRat := by
      intro hc
      apply h3
      simp only [Order.is_filled, Order.remaining_quantity]
      push_cast at hc ⊢
      linarith
    refine ⟨?_, ?_, i3, i4, ?_⟩
    · dsimp only
      linarith
    · dsimp only
      push_cast
      linarith
    · dsimp only
      constructor
      · intro hc
        exact absurd hc (by decide)
      · intro he
        exact absurd he hne

/-- `cancel` preserves the data-model invariants. -/
theorem invariants_cancel (o : Order) (h : o.invariants) :
    ((o.cancel).1).invariants := by
  obtain ⟨i1, i2, i3, i4, i5⟩ := h
  unfold Order.cancel
  split_ifs with h1
  · exact ⟨i1, i2, i3, i4, i5⟩
  · refine ⟨i1, i2, i3, i4, ?_⟩
    dsimp only
    constructor
    · intro hc
      exact absurd hc (by decide)
    · intro he
      exact absurd (i5.mpr he) h1

/-- The invariants are preserved by every sequence of lifecycle calls. -/
theorem invariants_runEvents (o : Order) (h : o.invariants) (es : List OrderEvent) :
    (runEvents o es).invariants := by
  induction es generalizing o with
  | nil => exact h
  | cons e es ih =>
    simp only [runEvents, List.foldl] at ih ⊢
    cases e with
    | fillEvent q => exact ih _ (invariants_fill o q h)
    | cancelEvent => exact ih _ (invariants_cancel o h)

/-- C2: every order reachable by a successful construction followed by any
sequence of `fill` / `cancel` calls (successful or failed) satisfies the
invariants: `0 ≤ filled_quantity ≤ quantity`, `quantity > 0`, a LIMIT order
has a present positive price, and `status = FILLED` iff
`filled_quantity = quantity`.  Quantifying over every event list covers every
intermediate point of every call sequence. -/
theorem order_invariants_always_hold (side : Side) (ot : OrderType) (q : PyNum)
    (price : Option ℚ) (oid : ℤ) (ts : ℚ) (o : Order)
    (hmk : mkOrder side ot q price oid ts = Except.ok o)
    (es : List OrderEvent) :
    (runEvents o es).invariants :=
  invariants_runEvents o (invariants_of_mkOrder side ot q price oid ts o hmk) es

/-- Witness for C2: a limit order for 10 at price 5, filled by 3 then
cancelled, still satisfies the invariants. -/
theorem order_invariants_always_hold_witness :
    mkOrder Side.BUY OrderType.LIMIT (PyNum.int 10) (some 5) 7 0 = Except.ok sampleNewLimitOrder ∧
    (runEvents sampleNewLimitOrder
      [OrderEvent.fillEvent 3, OrderEvent.cancelEvent]).invariants :=
  ⟨by rfl,
    order_invariants_always_hold Side.BUY OrderType.LIMIT (PyNum.int 10) (some 5) 7 0
      sampleNewLimitOrder (by rfl)
      [OrderEvent.fillEvent 3, OrderEvent.cancelEvent]⟩

/-! ## C4 -/

/-- Both price checks pass as soon as a LIMIT order type implies a present
positive price (and always for MARKET orders). -/
theorem price_checks_pass (ot : OrderType) (price : Option ℚ)
    (hp : ot = OrderType.LIMIT → pricePresentPositive price) :
    ¬(ot = OrderType.LIMIT ∧ price = none) ∧
    ¬(ot = OrderType.LIMIT ∧ priceNonPositive price = true) := by
  constructor
  · rintro ⟨hl, hn⟩
    have hm := hp hl
    rw [hn] at hm
    exact hm
  · rintro ⟨hl, hnp⟩
    have hm := hp hl
    cases hhp : price with
    | none =>
      rw [hhp] at hm
      exact hm
    | some p =>
      rw [hhp] at hm hnp
      simp only [priceNonPositive, decide_eq_true_eq] at hnp
      simp only [pricePresentPositive] at hm
      linarith

/-- Counterexample to C4 as stated: the quantity `float 3` (the Python value
`3.0`) is positive and a whole number, and the order type is MARKET so
neither price rule applies — it violates none of the claimed rules — yet
construction fails validation, because the source's fourth check is
`isinstance(quantity, int)`, not whole-numberhood. -/
theorem whole_float_quantity_rejected :
    0 < (PyNum.float 3).toRat ∧
    ((PyNum.float 3).toRat).den = 1 ∧
    mkOrder Side.BUY OrderType.MARKET (PyNum.float 3) none 1 0 =
      Except.error OrderError.invalidQuantityNonInteger :=
  ⟨by decide, by decide, by rfl⟩

/-- C4 (amended): construction validation applies exactly these rules, in
this order of precedence: LIMIT with absent price fails with `missingPrice`
(never `invalidPrice`); LIMIT with a present price ≤ 0 fails with
`invalidPrice`; quantity ≤ 0 fails with `invalidQuantity` (non-positive
message); a quantity that is not an `int`-typed value — any float, even with
a whole-number value — fails with `invalidQuantity` (distinct message, same
kind); a construction violating none of these rules does not fail
validation. -/
theorem validation_rules_exact (side : Side) (ot : OrderType) (q : PyNum)
    (price : Option ℚ) (oid : ℤ) (ts : ℚ) :
    (ot = OrderType.LIMIT → price = none →
      mkOrder side ot q price oid ts = Except.error OrderError.missingPrice) ∧
    (∀ p : ℚ, ot = OrderType.LIMIT → price = some p → p ≤ 0 →
      mkOrder side ot q price oid ts = Except.error OrderError.invalidPrice) ∧
    ((ot = OrderType.LIMIT → pricePresentPositive price) → q.toRat ≤ 0 →
      mkOrder side ot q price oid ts = Except.error OrderError.invalidQuantityNonPositive) ∧
    ((ot = OrderType.LIMIT → pricePresentPositive price) → 0 < q.toRat →
      q.isInt = false →
      mkOrder side ot q price oid ts = Except.error OrderError.invalidQuantityNonInteger) ∧
    ((ot = OrderType.LIMIT → pricePresentPositive price) → 0 < q.toRat →
      q.isInt = true →
      ∃ o : Order, mkOrder side ot q price oid ts = Except.ok o) := by
  refine ⟨?_, ?_, ?_, ?_, ?_⟩
  · intro h1 h2
    subst h1
    subst h2
    simp [mkOrder, Order.validate]
  · intro p h1 h2 h3
    subst h1
    subst h2
    simp [mkOrder, Order.validate, priceNonPositive, h3]
  · intro hp hq
    obtain ⟨hn1, hn2⟩ := price_checks_pass ot price hp
    simp only [mkOrder, Order.validate]
    rw [if_neg hn1, if_neg hn2, if_pos hq]
  · intro hp hq hf
    obtain ⟨hn1, hn2⟩ := price_checks_pass ot price hp
    simp only [mkOrder, Order.validate]
    rw [if_neg hn1, if_neg hn2, if_neg (not_le.mpr hq), if_pos hf]
  · intro hp hq hi
    obtain ⟨hn1, hn2⟩ := price_checks_pass ot price hp
    simp only [mkOrder, Order.validate]
    rw [if_neg hn1, if_neg hn2, if_neg (not_le.mpr hq),
      if_neg (by rw [hi]; exact fun hc => Bool.noConfusion hc)]
    exact ⟨_, rfl⟩

/-- Witness for C4 (amended): a LIMIT order without a price is rejected with
`missingPrice`. -/
theorem validation_rules_exact_witness :
    mkOrder Side.BUY OrderType.LIMIT (PyNum.int 5) none 1 0 =
      Except.error OrderError.missingPrice :=
  (validation_rules_exact Side.BUY OrderType.LIMIT (PyNum.int 5) none 1 0).1 rfl rfl

/-! ## C7 -/

/-- C7: for every side, every positive integer quantity, and (for LIMIT
orders) every positive price, construction succeeds and the new order has
status PENDING, filled quantity 0, and remaining quantity equal to the full
quantity. -/
theorem valid_construction_yields_pending_order (side : Side) (n : ℤ) (hn : 0 < n)
    (p : ℚ) (hp : 0 < p) (oid : ℤ) (ts : ℚ) :
    (∃ o : Order, create_limit_order side (PyNum.int n) p oid ts = Except.ok o ∧
      o.status = OrderStatus.PENDING ∧ o.filled_quantity = 0 ∧
      o.remaining_quantity = (n : ℚ)) ∧
    (∃ o : Order, create_market_order side (PyNum.int n) oid ts = Except.ok o ∧
      o.status = OrderStatus.PENDING ∧ o.filled_quantity = 0 ∧
      o.remaining_quantity = (n : ℚ)) := by
  have htq : ¬ (PyNum.int n).toRat ≤ 0 := by
    simp only [PyNum.toRat, not_le]
    exact_mod_cast hn
  have hii : ¬ (PyNum.int n).isInt = false := by
    simp [PyNum.isInt]
  constructor
  · obtain ⟨hn1, hn2⟩ := price_checks_pass OrderType.LIMIT (some p) (fun _ => hp)
    refine ⟨{ side := side
              order_type := OrderType.LIMIT
              quantity := PyNum.int n
              price := some p
              order_id := oid
              timestamp := ts
              filled_quantity := 0
              status := OrderStatus.PENDING }, ?_, rfl, rfl, ?_⟩
    · simp [create_limit_order, mkOrder, Order.validate, priceNonPositive,
        not_le.mpr hp, htq, hii]
    · simp [Order.remaining_quantity, PyNum.toRat]
  · have hn1 : ¬(OrderType.MARKET = OrderType.LIMIT ∧ (none : Option ℚ) = none) := by
      simp
    have hn2 : ¬(OrderType.MARKET = OrderType.LIMIT ∧
        priceNonPositive (none : Option ℚ) = true) := by
      simp [priceNonPositive]
    refine ⟨{ side := side
              order_type := OrderType.MARKET
              quantity := PyNum.int n
              price := none
              order_id := oid
              timestamp := ts
              filled_quantity := 0
              status := OrderStatus.PENDING }, ?_, rfl, rfl, ?_⟩
    · simp [create_market_order, mkOrder, Order.validate, htq, hii]
    · simp [Order.remaining_quantity, PyNum.toRat]

/-- Witness for C7: a 5-lot at price 2, and a 5-lot market order. -/
theorem valid_construction_yields_pending_order_witness :
    (∃ o : Order, create_limit_order Side.BUY (PyNum.int 5) 2 1 0 = Except.ok o ∧
      o.status = OrderStatus.PENDING ∧ o.filled_quantity = 0 ∧
      o.remaining_quantity = ((5 : ℤ) : ℚ)) ∧
    (∃ o : Order, create_market_order Side.BUY (PyNum.int 5) 1 0 = Except.ok o ∧
      o.status = OrderStatus.PENDING ∧ o.filled_quantity = 0 ∧
      o.remaining_quantity = ((5 : ℤ) : ℚ)) :=
  valid_construction_yields_pending_order Side.BUY 5 (by decide) 2 (by decide) 1 0

/-! ## C8 -/

/-- Running the generator n times from counter `s` yields the ids
`s, s+1, …, s+n-1` and leaves the counter at `s + n`. -/
theorem nextN_from (s : ℤ) (n : ℕ) :
    (OrderIDGenerator.mk s).nextN n =
      ((List.range n).map (fun (i : ℕ) => s + (i : ℤ)), OrderIDGenerator.mk (s + n)) := by
  induction n generalizing s with
  | zero =>
    simp [OrderIDGenerator.nextN]
  | succ n ih =>
    have hlist : (List.range (n + 1)).map (fun (i : ℕ) => s + (i : ℤ))
        = s :: (List.range n).map (fun (i : ℕ) => s + 1 + (i : ℤ)) := by
      rw [List.range_succ_eq_map, List.map_cons, List.map_map]
      congr 1
      · norm_num
      · refine List.map_congr_left ?_
        intro i _
        simp only [Function.comp_apply]
        push_cast
        ring
    have hstep : (OrderIDGenerator.mk s).nextN (n + 1)
        = ((s : ℤ) :: ((OrderIDGenerator.mk (s + 1)).nextN n).1,
           ((OrderIDGenerator.mk (s + 1)).nextN n).2) := rfl
    rw [hstep, ih (s + 1), hlist]
    dsimp only
    simp only [Prod.mk.injEq, OrderIDGenerator.mk.injEq]
    refine ⟨trivial, ?_⟩
    push_cast
    ring

/-- C8: n calls of `next()` on the fresh default generator return the ids
`1, 2, …, n` — pairwise distinct and strictly increasing, starting at 1;
`reset()` makes the following `next()` return 1 again; and each `next()`
returns the current counter while incrementing it by exactly 1. -/
theorem id_generator_sequence (n : ℕ) :
    (id_generator.nextN n).1 = (List.range n).map (fun (i : ℕ) => (i : ℤ) + 1) ∧
    ((id_generator.nextN n).1).Pairwise (· < ·) ∧
    ((id_generator.nextN n).1).Nodup ∧
    (∀ g : OrderIDGenerator, (g.reset.next).1 = 1) ∧
    (∀ g : OrderIDGenerator, g.next = (g._current, ⟨g._current + 1⟩)) := by
  have hmain : (id_generator.nextN n).1 = (List.range n).map (fun (i : ℕ) => (i : ℤ) + 1) := by
    show ((OrderIDGenerator.mk 1).nextN n).1 = _
    rw [nextN_from 1 n]
    refine List.map_congr_left ?_
    intro i _
    ring
  have hpw : ((id_generator.nextN n).1).Pairwise (· < ·) := by
    rw [hmain]
    refine List.Pairwise.map (fun i : ℕ => (i : ℤ) + 1) ?_ (List.pairwise_lt_range n)
    intro a b hab
    show (a : ℤ) + 1 < (b : ℤ) + 1
    have hab2 : (a : ℤ) < (b : ℤ) := by exact_mod_cast hab
    linarith
  exact ⟨hmain, hpw, hpw.imp ne_of_lt, fun _ => rfl, fun _ => rfl⟩

/-! ## C9 -/

/-- C9: two orders are equal under the entity (identity) equality exactly
when their `order_id`s agree, regardless of every other field; orders with
different `order_id` never compare equal. -/
theorem order_equality_is_identity (a b : Order) :
    (Order.eq a b = true ↔ a.order_id = b.order_id) ∧
    (a.order_id ≠ b.order_id → Order.eq a b = false) := by
  constructor
  · simp [Order.eq]
  · intro h
    simp [Order.eq, h]

/-- Witness for C9: the sample orders with ids 1 and 3 compare unequal. -/
theorem order_equality_is_identity_witness :
    sampleMarketOrder.order_id ≠ sampleFilledOrder.order_id ∧
    Order.eq sampleMarketOrder sampleFilledOrder = false :=
  ⟨by decide,
    (order_equality_is_identity sampleMarketOrder sampleFilledOrder).2 (by decide)⟩

/-! ## C10 -/

/-- C10: a MARKET order undergoes no price validation: for every side, every
positive integer quantity, and every supplied price value — absent, zero or
negative included — construction succeeds, because both price checks are
guarded on the order type being LIMIT. -/
theorem market_order_skips_price_validation (side : Side) (n : ℤ) (hn : 0 < n)
    (price : Option ℚ) (oid : ℤ) (ts : ℚ) :
    mkOrder side OrderType.MARKET (PyNum.int n) price oid ts =
      Except.ok
        { side := side
          order_type := OrderType.MARKET
          quantity := PyNum.int n
          price := price
          order_id := oid
          timestamp := ts
          filled_quantity := 0
          status := OrderStatus.PENDING } := by
  have htq : ¬ (PyNum.int n).toRat ≤ 0 := by
    simp only [PyNum.toRat, not_le]
    exact_mod_cast hn
  have hii : ¬ (PyNum.int n).isInt = false := by
    simp [PyNum.isInt]
  simp [mkOrder, Order.validate, htq, hii]

/-- Witness for C10: a MARKET sell of 5 with the nonsensical price -3 is
still accepted. -/
theorem market_order_skips_price_validation_witness :
    (0 : ℤ) < 5 ∧
    mkOrder Side.SELL OrderType.MARKET (PyNum.int 5) (some (-3)) 9 0 =
      Except.ok
        { side := Side.SELL
          order_type := OrderType.MARKET
          quantity := PyNum.int 5
          price := some (-3)
          order_id := 9
          timestamp := 0
          filled_quantity := 0
          status := OrderStatus.PENDING } :=
  ⟨by decide, market_order_skips_price_validation Side.SELL 5 (by decide) (some (-3)) 9 0⟩
